import Mathlib

/-!
Verification of the in-memory URL-shortener registry (`main.go`) against its
specification.  The Go code is shallowly embedded: the registry map
`map[string]*Link` becomes a function `String → Option Link`, Go `time.Time`
values become `Int` instants compared with `timeAfter` (Go's `Time.After`),
and the random source consumed by `generateCode` becomes an explicit stream
of draws `Nat → Fin base62.length` (one draw per character, mirroring
`rand.Intn(len(base62))`).  `Store.Create`'s unbounded retry loop is embedded
with explicit fuel: a `none` result means the loop did not terminate within
the given fuel.
-/

/-- Go constant `DefaultValidityMinutes = 30` from `main.go`. -/
def DefaultValidityMinutes : Int := 30

/-- Go constant `CodeLength = 6` from `main.go`. -/
def CodeLength : Nat := 6

/-- The 62-symbol alphabet `base62` from `main.go`. -/
def base62 : List Char :=
  "abcdefghijklmnopqrstuvwxyzABCDEFGHIJKLMNOPQRSTUVWXYZ0123456789".data

/-- Go `a.After(b)` on instants: strictly greater. -/
def timeAfter (a b : Int) : Bool := decide (b < a)

/-- The `Link` record from `main.go` (timestamps as `Int` instants). -/
structure Link where
  longURL : String
  shortCode : String
  createdAt : Int
  expiresAt : Int
  clicks : Int
deriving DecidableEq, Repr

/-- The registry map `map[string]*Link` of `Store`, as a lookup function. -/
def Reg : Type := String → Option Link

/-! ### Model of Go `net/url.ParseRequestURI`

`Store.Create` validates `longURL` with the standard-library function
`url.ParseRequestURI`, i.e. `parse(rawURL, viaRequest := true)`.  The
definitions below transcribe that parser (success/failure only) from the Go
standard library: control-byte rejection, scheme extraction (`getScheme`),
query stripping, the opaque / path-absolute / authority split, authority
parsing (`parseAuthority`, `parseHost`, `validUserinfo`,
`validOptionalPort`) and percent-escape validation (`unescape` in its
`encodePath` / `encodeHost` / `encodeZone` / `encodeUserPassword` modes). -/

/-- Go `stringContainsCTLByte`: byte below 0x20 or equal to 0x7f. -/
def isCTL (c : Char) : Bool := c.toNat < 32 || c.toNat == 127

def isLowerAZ (c : Char) : Bool := decide ('a' ≤ c) && decide (c ≤ 'z')

def isUpperAZ (c : Char) : Bool := decide ('A' ≤ c) && decide (c ≤ 'Z')

def isDigit09 (c : Char) : Bool := decide ('0' ≤ c) && decide (c ≤ '9')

def isAlphaGo (c : Char) : Bool := isLowerAZ c || isUpperAZ c

/-- Go `ishex`. -/
def isHexGo (c : Char) : Bool :=
  isDigit09 c || (decide ('a' ≤ c) && decide (c ≤ 'f')) ||
    (decide ('A' ≤ c) && decide (c ≤ 'F'))

/-- Go `unhex`. -/
def unhexGo (c : Char) : Nat :=
  if isDigit09 c then c.toNat - 48
  else if decide ('a' ≤ c) && decide (c ≤ 'f') then c.toNat - 97 + 10
  else if decide ('A' ≤ c) && decide (c ≤ 'F') then c.toNat - 65 + 10
  else 0

/-- Go `shouldEscape(c, encodeHost)`: true when the ASCII byte `c` may not
appear literally in a host.  Unreserved characters, sub-delims and
`: [ ] < > "` are allowed. -/
def hostShouldEscape (c : Char) : Bool :=
  !(isAlphaGo c || isDigit09 c ||
    ['!', '$', '&', '(', ')', '*', '+', ',', ';', '=', ':',
     '[', ']', '<', '>', '-', '_', '.', '~'].contains c ||
    c == Char.ofNat 39 || c == Char.ofNat 34)

/-- The escaping modes of Go `net/url` that `parse` validates with. -/
inductive EncMode
  | path
  | host
  | zone
  | userPwd
deriving DecidableEq

/-- Success of Go `unescape(s, mode)`: every `%` introduces two hex digits;
in host mode a `%`-escape may only encode a non-ASCII byte (except `%25`),
and unescaped ASCII bytes must be legal host characters; in zone mode an
escape must be `%25`, a space, or a legal host byte. -/
def unescapeOK (mode : EncMode) : List Char → Bool
  | [] => true
  | c :: rest =>
    if c == '%' then
      match rest with
      | h1 :: h2 :: rest2 =>
        if !(isHexGo h1 && isHexGo h2) then false
        else if mode == EncMode.host && unhexGo h1 < 8 &&
            !(h1 == '2' && h2 == '5') then false
        else if mode == EncMode.zone && !(h1 == '2' && h2 == '5') &&
            unhexGo h1 * 16 + unhexGo h2 != 32 &&
            hostShouldEscape (Char.ofNat (unhexGo h1 * 16 + unhexGo h2)) then false
        else unescapeOK mode rest2
      | _ => false
    else if c == '+' then unescapeOK mode rest
    else if (mode == EncMode.host || mode == EncMode.zone) && c.toNat < 128 &&
        hostShouldEscape c then false
    else unescapeOK mode rest

/-- Go `validOptionalPort`: empty, or a colon followed by digits only. -/
def validOptionalPort : List Char → Bool
  | [] => true
  | c :: rest => c == ':' && rest.all isDigit09

/-- Go `validUserinfo`: unreserved characters, sub-delims, `:`, `%`, `@`. -/
def validUserinfo (l : List Char) : Bool :=
  l.all fun c =>
    isAlphaGo c || isDigit09 c ||
    ['-', '.', '_', ':', '~', '!', '$', '&', '(', ')', '*', '+', ',',
     ';', '=', '%', '@'].contains c ||
    c == Char.ofNat 39

/-- Index of the last occurrence of `c` (Go `strings.LastIndex` for a
single-character needle). -/
def lastIdx (c : Char) : List Char → Option Nat
  | [] => none
  | a :: rest =>
    match lastIdx c rest with
    | some i => some (i + 1)
    | none => if a == c then some 0 else none

/-- Index of the first occurrence of the substring `%25`
(Go `strings.Index(s, "%25")`). -/
def idxPct25 : List Char → Option Nat
  | '%' :: '2' :: '5' :: _ => some 0
  | _ :: rest => (idxPct25 rest).map (· + 1)
  | [] => none

/-- Go scheme characters after the first: ALPHA / DIGIT / `+` / `-` / `.`. -/
def isSchemeChar (c : Char) : Bool :=
  isAlphaGo c || isDigit09 c || c == '+' || c == '-' || c == '.'

/-- Scanner inside Go `getScheme`, from position 1 on, after an initial
alphabetic character: a colon ends the scheme; a non-scheme character means
the whole string has no scheme. -/
def schemeScan (orig : List Char) (acc : List Char) : List Char → Option (List Char × List Char)
  | [] => some ([], orig)
  | c :: rest =>
    if c == ':' then some (acc.reverse, rest)
    else if isSchemeChar c then schemeScan orig (c :: acc) rest
    else some ([], orig)

/-- Go `getScheme`: `none` is the hard error `missing protocol scheme`
(colon in first position); otherwise `(scheme, rest)` where the scheme may
be empty. -/
def getScheme : List Char → Option (List Char × List Char)
  | [] => some ([], [])
  | c :: rest =>
    if c == ':' then none
    else if isAlphaGo c then schemeScan (c :: rest) [c] rest
    else some ([], c :: rest)

/-- Success of Go `parseHost`: bracketed hosts need a closing bracket, a
valid optional port and (when an IPv6 zone `%25` is present) per-section
escape validation; unbracketed hosts need a valid optional port after the
last colon and host-mode escape validation. -/
def parseHostOK (h : List Char) : Bool :=
  match h with
  | '[' :: _ =>
    match lastIdx ']' h with
    | none => false
    | some i =>
      validOptionalPort (h.drop (i + 1)) &&
      (match idxPct25 (h.take i) with
       | some z =>
         unescapeOK EncMode.host (h.take z) &&
         unescapeOK EncMode.zone ((h.take i).drop z) &&
         unescapeOK EncMode.host (h.drop i)
       | none => unescapeOK EncMode.host h)
  | _ =>
    (match lastIdx ':' h with
     | some i => validOptionalPort (h.drop i)
     | none => true) &&
    unescapeOK EncMode.host h

/-- Success of Go `parseAuthority`: the host after the last `@` must parse,
and any userinfo before it must be valid and correctly escaped. -/
def parseAuthorityOK (a : List Char) : Bool :=
  match lastIdx '@' a with
  | none => parseHostOK a
  | some i =>
    parseHostOK (a.drop (i + 1)) && validUserinfo (a.take i) &&
    unescapeOK EncMode.userPwd (a.take i)

/-- Success of Go `parse(rawURL, viaRequest := true)`, the body of
`url.ParseRequestURI`. -/
def parseViaRequest (s : List Char) : Bool :=
  if s.any isCTL then false
  else if s.isEmpty then false
  else if s == ['*'] then true
  else
    match getScheme s with
    | none => false
    | some (scheme, rest) =>
      let rest1 := rest.takeWhile fun c => c != '?'
      match rest1 with
      | '/' :: rest2 =>
        if !scheme.isEmpty then
          match rest2 with
          | '/' :: rest3 =>
            let authority := rest3.takeWhile fun c => c != '/'
            let pathPart := rest3.dropWhile fun c => c != '/'
            parseAuthorityOK authority && unescapeOK EncMode.path pathPart
          | _ => unescapeOK EncMode.path rest1
        else unescapeOK EncMode.path rest1
      | _ => !scheme.isEmpty

/-- Whether Go `url.ParseRequestURI(s)` succeeds — the validation used by
`Store.Create` in `main.go`. -/
def parseRequestURI (s : String) : Bool := parseViaRequest s.data

/-- Modelled from the spec: "validated as a well-formed absolute URI".  An
absolute URI (RFC 3986 `absolute-URI = scheme ":" hier-part ...`) must begin
with a nonempty scheme followed by a colon; this definition checks exactly
that necessary requirement, which a bare path such as `/foo` fails. -/
def isAbsoluteURI (s : String) : Bool :=
  match getScheme s.data with
  | some (_ :: _, _) => true
  | _ => false

/-! ### Code generator and registry operations -/

/-- The character list built by Go `generateCode(n)`:
`b[i] = base62[rand.Intn(len(base62))]`, with the `i`-th random draw given
by `draw i`. -/
def generateCodeList (n : Nat) (draw : Nat → Fin base62.length) : List Char :=
  (List.range n).map fun i => base62.get (draw i)

/-- Go `generateCode(n)` from `main.go`, with the random draws explicit. -/
def generateCode (n : Nat) (draw : Nat → Fin base62.length) : String :=
  ⟨generateCodeList n draw⟩

/-- Go `Store.Get`: map lookup (the comma-ok pair becomes an `Option`). -/
def Store.Get (data : Reg) (code : String) : Option Link := data code

/-- Go `Store.Increment`: bump `Clicks` when the code is present, no-op
otherwise. -/
def Store.Increment (data : Reg) (code : String) : Reg :=
  match data code with
  | some l => fun k => if k = code then some { l with clicks := l.clicks + 1 } else data k
  | none => data

/-- One pass of the sweep loop body in Go `Store.CleanupExpired`: delete
every entry with `now.After(v.ExpiresAt)`. -/
def Store.CleanupExpired (data : Reg) (now : Int) : Reg :=
  fun k =>
    match data k with
    | some v => if timeAfter now v.expiresAt then none else some v
    | none => none

/-- The `for { code = generateCode(CodeLength); ... }` retry loop of
`Store.Create`, with explicit fuel; `draw i` is the stream of random draws
consumed by the `i`-th call to `generateCode`.  A `none` result means the
loop did not finish within `fuel` iterations. -/
def genLoop (data : Reg) (draw : Nat → Nat → Fin base62.length) :
    Nat → Nat → Option String
  | _, 0 => none
  | i, fuel + 1 =>
    let code := generateCode CodeLength (draw i)
    if (data code).isSome then genLoop data draw (i + 1) fuel else some code

/-- The errors `Store.Create` can return: `invalid url` and
`custom code already exists`. -/
inductive CreateError
  | invalidURL
  | codeConflict
deriving DecidableEq, Repr

/-- The tail of Go `Store.Create` once a code has been chosen: build the
`Link` stamped with `now` and `now + validity` and insert it. -/
def mkAndInsert (data : Reg) (longURL code : String) (validity now : Int) :
    Except CreateError Link × Reg :=
  let l : Link := { longURL := longURL, shortCode := code, createdAt := now,
                    expiresAt := now + validity, clicks := 0 }
  (Except.ok l, fun k => if k = code then some l else data k)

/-- Go `Store.Create` from `main.go`: validate the URL, then either check
the custom code for a conflict or run the generation loop, then insert.
The result pairs the returned value with the registry after the call;
`none` means the generation loop exhausted its fuel. -/
def Store.Create (data : Reg) (longURL custom : String) (validity now : Int)
    (draw : Nat → Nat → Fin base62.length) (fuel : Nat) :
    Option (Except CreateError Link × Reg) :=
  if parseRequestURI longURL = false then
    some (Except.error CreateError.invalidURL, data)
  else if custom ≠ "" then
    if (data custom).isSome then some (Except.error CreateError.codeConflict, data)
    else some (mkAndInsert data longURL custom validity now)
  else
    match genLoop data draw 0 fuel with
    | none => none
    | some code => some (mkAndInsert data longURL code validity now)

/-- The error component of a `Store.Create` result, if any. -/
def createErrOf (r : Option (Except CreateError Link × Reg)) : Option CreateError :=
  match r with
  | some (Except.error e, _) => some e
  | _ => none

/-- The returned `Link` of a successful `Store.Create` result, if any. -/
def createOkLink (r : Option (Except CreateError Link × Reg)) : Option Link :=
  match r with
  | some (Except.ok l, _) => some l
  | _ => none

/-! ### HTTP handlers -/

/-- The observable responses a handler can produce: `writeJSON` of a link
record, `httpError` with a status and message, or `http.Redirect`. -/
inductive HResp
  | json (status : Nat) (link : Link)
  | err (status : Nat) (msg : String)
  | redirect (status : Nat) (target : String)
deriving DecidableEq, Repr

/-- Go `redirectHandler` from `main.go`, one request: look the code up, 404
if absent, 410 if `now` is past expiry, otherwise increment the click count
and redirect (302) to the long URL.  Returns the response together with the
registry after the request. -/
def redirectHandler (data : Reg) (code : String) (now : Int) : HResp × Reg :=
  match Store.Get data code with
  | none => (HResp.err 404 "short link not found", data)
  | some link =>
    if timeAfter now link.expiresAt then (HResp.err 410 "short link expired", data)
    else (HResp.redirect 302 link.longURL, Store.Increment data code)

/-- Go `statsHandler` from `main.go`, one request: look the code up, 404 if
absent, otherwise 200 with the full link record.  No expiry check. -/
def statsHandler (data : Reg) (code : String) : HResp :=
  match Store.Get data code with
  | none => HResp.err 404 "short link not found"
  | some link => HResp.json 200 link

/-! ### Concrete fixtures used by witnesses and counterexamples -/

/-- The empty registry. -/
def emptyReg : Reg := fun _ => none

/-- A draw stream that always picks index 0, i.e. the character `a`. -/
def drawA : Nat → Nat → Fin base62.length := fun _ _ => ⟨0, by decide⟩

/-- A live link fixture: created at 0, expires at 30. -/
def linkA : Link :=
  { longURL := "https://example.com", shortCode := "abc", createdAt := 0,
    expiresAt := 30, clicks := 0 }

/-- A registry holding `linkA` under code `abc`. -/
def regA : Reg := fun k => if k = "abc" then some linkA else none

/-- The registry produced by inserting `linkA` into the empty registry. -/
def regA4 : Reg := fun k => if k = "abc" then some linkA else emptyReg k

/-- A link whose expiry instant is exactly 0. -/
def linkE : Link :=
  { longURL := "https://example.com", shortCode := "abc", createdAt := 0,
    expiresAt := 0, clicks := 0 }

/-- A registry holding `linkE` under code `abc`. -/
def regE : Reg := fun k => if k = "abc" then some linkE else none

/-- The link created by `Store.Create` for long URL `/foo`. -/
def linkFoo : Link :=
  { longURL := "/foo", shortCode := "abc", createdAt := 0,
    expiresAt := 30, clicks := 0 }

/-- A link that expired at instant 10. -/
def linkGone : Link :=
  { longURL := "https://example.com", shortCode := "abc", createdAt := 0,
    expiresAt := 10, clicks := 7 }

/-- A registry holding `linkGone` under code `abc`. -/
def regGone : Reg := fun k => if k = "abc" then some linkGone else none

/-- A placeholder record stored at every key of `fullReg`. -/
def dummyLink : Link :=
  { longURL := "https://example.com", shortCode := "", createdAt := 0,
    expiresAt := 0, clicks := 0 }

/-- A registry in which every length-6 base62 string is occupied. -/
def fullReg : Reg := fun s =>
  if s.length == CodeLength && s.data.all (fun c => decide (c ∈ base62)) then
    some dummyLink
  else none

/-! ### Theorems -/

theorem generateCode_length (n : Nat) (draw : Nat → Fin base62.length) :
    (generateCode n draw).length = n := by
  show (generateCodeList n draw).length = n
  simp [generateCodeList]

theorem generateCode_mem (n : Nat) (draw : Nat → Fin base62.length) (c : Char)
    (hc : c ∈ (generateCode n draw).data) : c ∈ base62 := by
  have hc2 : c ∈ generateCodeList n draw := hc
  simp only [generateCodeList, List.mem_map, List.mem_range] at hc2
  obtain ⟨i, _, rfl⟩ := hc2
  exact base62.get_mem _ _

/-- C7: every code produced by the generator has length exactly 6 and all of
its characters lie in the 62-symbol base62 alphabet, for every stream of
random draws. -/
theorem C7_generated_codes (draw : Nat → Fin base62.length) :
    (generateCode CodeLength draw).length = 6 ∧
    (∀ c ∈ (generateCode CodeLength draw).data, c ∈ base62) ∧
    base62.length = 62 :=
  ⟨generateCode_length CodeLength draw,
   fun c hc => generateCode_mem CodeLength draw c hc, by decide⟩

theorem C7_generated_codes_witness :
    (generateCode CodeLength (drawA 0)).length = 6 ∧ 'a' ∈ base62 :=
  ⟨(C7_generated_codes (drawA 0)).1, (C7_generated_codes (drawA 0)).2.1 'a' (by decide)⟩

theorem genLoop_finds (data : Reg) (draw : Nat → Nat → Fin base62.length) :
    ∀ n start, data (generateCode CodeLength (draw (start + n))) = none →
      (∀ m, m < n → (data (generateCode CodeLength (draw (start + m)))).isSome = true) →
      genLoop data draw start (n + 1) = some (generateCode CodeLength (draw (start + n))) := by
  intro n
  induction n with
  | zero =>
    intro start h0 _
    simp only [Nat.add_zero] at h0
    simp [genLoop, h0]
  | succ n ih =>
    intro start hn hall
    have h0 : (data (generateCode CodeLength (draw start))).isSome = true := by
      simpa using hall 0 (Nat.succ_pos n)
    have e1 : start + 1 + n = start + (n + 1) := by omega
    have hrec := ih (start + 1) (by rw [e1]; exact hn)
      (by
        intro m hm
        have e2 : start + 1 + m = start + (m + 1) := by omega
        rw [e2]
        exact hall (m + 1) (by omega))
    have step : genLoop data draw start (n + 1 + 1) =
        if (data (generateCode CodeLength (draw start))).isSome = true then
          genLoop data draw (start + 1) (n + 1)
        else some (generateCode CodeLength (draw start)) := rfl
    rw [step, if_pos h0, hrec, e1]

theorem fullReg_occupied (s : String) (h1 : s.length = CodeLength)
    (h2 : ∀ c ∈ s.data, c ∈ base62) : (fullReg s).isSome = true := by
  have hb : (s.length == CodeLength && s.data.all fun c => decide (c ∈ base62)) = true := by
    simp only [Bool.and_eq_true, beq_iff_eq, List.all_eq_true, decide_eq_true_eq]
    exact ⟨h1, h2⟩
  simp [fullReg, hb]

/-- C9: with empty custom code, the generation loop terminates with an
unused code whenever the stream of draws eventually produces a code that is
not in the registry; and when every length-6 base62 string is occupied, the
loop returns nothing for every amount of fuel (it never terminates). -/
theorem C9_gen_loop_termination (data : Reg) (draw : Nat → Nat → Fin base62.length) :
    ((∃ i, data (generateCode CodeLength (draw i)) = none) →
      ∃ fuel code, genLoop data draw 0 fuel = some code ∧ data code = none) ∧
    ((∀ s : String, s.length = CodeLength → (∀ c ∈ s.data, c ∈ base62) →
        (data s).isSome = true) →
      ∀ fuel i, genLoop data draw i fuel = none) := by
  constructor
  · intro hex
    classical
    have h0 : data (generateCode CodeLength (draw (Nat.find hex))) = none :=
      Nat.find_spec hex
    have hmin : ∀ m, m < Nat.find hex →
        (data (generateCode CodeLength (draw m))).isSome = true := by
      intro m hm
      have hne := Nat.find_min hex hm
      cases h : data (generateCode CodeLength (draw m)) with
      | none => exact absurd h hne
      | some _ => rfl
    refine ⟨Nat.find hex + 1, generateCode CodeLength (draw (Nat.find hex)), ?_, h0⟩
    have := genLoop_finds data draw (Nat.find hex) 0
      (by simpa using h0) (by intro m hm; simpa using hmin m hm)
    simpa using this
  · intro hall fuel
    induction fuel with
    | zero => intro i; rfl
    | succ fuel ih =>
      intro i
      have hs : (data (generateCode CodeLength (draw i))).isSome = true :=
        hall _ (generateCode_length CodeLength (draw i))
          (fun c hc => generateCode_mem CodeLength (draw i) c hc)
      simp [genLoop, hs, ih (i + 1)]

theorem C9_gen_loop_termination_witness :
    (∃ fuel code, genLoop emptyReg drawA 0 fuel = some code ∧ emptyReg code = none) ∧
    genLoop fullReg drawA 0 3 = none :=
  ⟨(C9_gen_loop_termination emptyReg drawA).1 ⟨0, rfl⟩,
   (C9_gen_loop_termination fullReg drawA).2 fullReg_occupied 3 0⟩

/-- C1 (amended): when the long URL passes URL validation, Create with a
non-empty custom code that is already present always fails with the
code-conflict error and leaves the registry unchanged. -/
theorem C1_custom_conflict (data : Reg) (longURL custom : String) (validity now : Int)
    (draw : Nat → Nat → Fin base62.length) (fuel : Nat)
    (hc : custom ≠ "") (hp : (data custom).isSome = true)
    (hu : parseRequestURI longURL = true) :
    Store.Create data longURL custom validity now draw fuel =
      some (Except.error CreateError.codeConflict, data) := by
  simp [Store.Create, hu, hc, hp]

/-- C1's original claim fails: with the conflicting custom code `abc`
already registered, a payload whose long URL is the empty string makes
Create fail with the invalid-URL error, not the code-conflict error,
because `Store.Create` validates the URL before checking the custom code. -/
theorem C1_counterexample :
    (regA "abc").isSome = true ∧
    createErrOf (Store.Create regA "" "abc" 30 0 drawA 1) = some CreateError.invalidURL ∧
    CreateError.invalidURL ≠ CreateError.codeConflict := by decide

theorem C1_custom_conflict_witness :
    Store.Create regA "https://example.com" "abc" 30 0 drawA 1 =
      some (Except.error CreateError.codeConflict, regA) :=
  C1_custom_conflict regA "https://example.com" "abc" 30 0 drawA 1 (by decide) rfl rfl

/-- C2 (amended): one sweep pass removes exactly the records whose expiry
instant is strictly before `now`, and every record with expiry at or after
`now` is still present and unchanged; absent codes stay absent. -/
theorem C2_sweep_exact (data : Reg) (now : Int) (code : String) :
    (∀ v, data code = some v →
      (v.expiresAt < now → Store.CleanupExpired data now code = none) ∧
      (now ≤ v.expiresAt → Store.CleanupExpired data now code = some v)) ∧
    (data code = none → Store.CleanupExpired data now code = none) := by
  constructor
  · intro v hv
    constructor
    · intro hlt
      simp [Store.CleanupExpired, hv, timeAfter, hlt]
    · intro hge
      simp [Store.CleanupExpired, hv, timeAfter, not_lt.mpr hge]
  · intro hn
    simp [Store.CleanupExpired, hn]

/-- C2's original claim fails at the boundary: a record whose expiry equals
the sweep instant (`expiresAt = now = 0`) satisfies `expiresAt ≤ now`, yet
the sweep keeps it, because the code removes only when `now.After(expiresAt)`
holds strictly. -/
theorem C2_counterexample :
    linkE.expiresAt ≤ 0 ∧ Store.CleanupExpired regE 0 "abc" = some linkE := by decide

theorem C2_sweep_exact_witness :
    Store.CleanupExpired regE 100 "abc" = none ∧
    Store.CleanupExpired regE 0 "abc" = some linkE :=
  ⟨((C2_sweep_exact regE 100 "abc").1 linkE rfl).1 (by decide),
   ((C2_sweep_exact regE 0 "abc").1 linkE rfl).2 (by decide)⟩

/-- C3 (amended): Create fails with the invalid-URL error exactly when
Go `url.ParseRequestURI` rejects the long URL; that validator accepts every
absolute URI but also accepts path-absolute strings such as `/foo`, so
strings that are not absolute URIs are not all rejected. -/
theorem C3_invalid_url (data : Reg) (longURL custom : String) (validity now : Int)
    (draw : Nat → Nat → Fin base62.length) (fuel : Nat) :
    (parseRequestURI longURL = false →
      Store.Create data longURL custom validity now draw fuel =
        some (Except.error CreateError.invalidURL, data)) ∧
    (parseRequestURI longURL = true →
      createErrOf (Store.Create data longURL custom validity now draw fuel) ≠
        some CreateError.invalidURL) := by
  constructor
  · intro h
    simp [Store.Create, h]
  · intro h
    by_cases hc : custom = ""
    · subst hc
      cases hg : genLoop data draw 0 fuel with
      | none => simp [Store.Create, h, hg, createErrOf]
      | some code => simp [Store.Create, h, hg, createErrOf, mkAndInsert]
    · by_cases hp : (data custom).isSome = true
      · simp [Store.Create, h, hc, hp, createErrOf]
      · simp [Store.Create, h, hc, hp, createErrOf, mkAndInsert]

/-- C3's original claim fails: `/foo` is not an absolute URI (it has no
scheme), yet Create accepts it and succeeds instead of failing with the
invalid-URL error. -/
theorem C3_counterexample :
    isAbsoluteURI "/foo" = false ∧
    createErrOf (Store.Create emptyReg "/foo" "abc" 30 0 drawA 1) = none ∧
    createOkLink (Store.Create emptyReg "/foo" "abc" 30 0 drawA 1) = some linkFoo := by
  decide

theorem C3_invalid_url_witness :
    Store.Create emptyReg "notaurl" "abc" 30 0 drawA 1 =
      some (Except.error CreateError.invalidURL, emptyReg) ∧
    createErrOf (Store.Create emptyReg "https://example.com" "abc" 30 0 drawA 1) ≠
      some CreateError.invalidURL :=
  ⟨(C3_invalid_url emptyReg "notaurl" "abc" 30 0 drawA 1).1 rfl,
   (C3_invalid_url emptyReg "https://example.com" "abc" 30 0 drawA 1).2 rfl⟩

/-- C4: whenever Create succeeds, Get on the short code of the returned
link finds it, the stored long URL equals the one passed to Create, and the
click count is 0. -/
theorem C4_create_then_get (data : Reg) (longURL custom : String) (validity now : Int)
    (draw : Nat → Nat → Fin base62.length) (fuel : Nat) (l : Link) (reg2 : Reg)
    (h : Store.Create data longURL custom validity now draw fuel =
      some (Except.ok l, reg2)) :
    Store.Get reg2 l.shortCode = some l ∧ l.longURL = longURL ∧ l.clicks = 0 := by
  by_cases hu : parseRequestURI longURL = false
  · simp [Store.Create, hu] at h
  · by_cases hc : custom = ""
    · subst hc
      cases hg : genLoop data draw 0 fuel with
      | none => simp [Store.Create, hu, hg] at h
      | some code =>
        simp [Store.Create, hu, hg, mkAndInsert] at h
        obtain ⟨hl, hr⟩ := h
        subst hl
        subst hr
        refine ⟨?_, rfl, rfl⟩
        simp [Store.Get]
    · by_cases hp : (data custom).isSome = true
      · simp [Store.Create, hu, hc, hp] at h
      · simp [Store.Create, hu, hc, hp, mkAndInsert] at h
        obtain ⟨hl, hr⟩ := h
        subst hl
        subst hr
        refine ⟨?_, rfl, rfl⟩
        simp [Store.Get]

theorem C4_create_then_get_witness :
    Store.Get regA4 linkA.shortCode = some linkA ∧
    linkA.longURL = "https://example.com" ∧ linkA.clicks = 0 :=
  C4_create_then_get emptyReg "https://example.com" "abc" 30 0 drawA 1 linkA regA4 rfl

/-- C5: a successful redirect bumps exactly the target link's click count
by one and changes no other entry, and Increment on an absent code is a
no-op that leaves the registry unchanged. -/
theorem C5_redirect_clicks (data : Reg) (code : String) (now : Int) :
    (∀ link, Store.Get data code = some link →
      timeAfter now link.expiresAt = false →
      (redirectHandler data code now).1 = HResp.redirect 302 link.longURL ∧
      (redirectHandler data code now).2 code =
        some { link with clicks := link.clicks + 1 } ∧
      (∀ k, k ≠ code → (redirectHandler data code now).2 k = data k)) ∧
    (Store.Get data code = none → Store.Increment data code = data) := by
  constructor
  · intro link hget hlive
    have hdc : data code = some link := hget
    refine ⟨?_, ?_, ?_⟩
    · simp [redirectHandler, Store.Get, hdc, hlive]
    · simp [redirectHandler, Store.Get, Store.Increment, hdc, hlive]
    · intro k hk
      simp [redirectHandler, Store.Get, Store.Increment, hdc, hlive, hk]
  · intro hget
    have hdc : data code = none := hget
    simp [Store.Increment, hdc]

theorem C5_redirect_clicks_witness :
    (redirectHandler regA "abc" 5).2 "abc" =
      some { linkA with clicks := linkA.clicks + 1 } ∧
    (redirectHandler regA "abc" 5).2 "zzz" = regA "zzz" ∧
    Store.Increment regA "zzz" = regA :=
  ⟨((C5_redirect_clicks regA "abc" 5).1 linkA rfl rfl).2.1,
   ((C5_redirect_clicks regA "abc" 5).1 linkA rfl rfl).2.2 "zzz" (by decide),
   (C5_redirect_clicks regA "zzz" 5).2 rfl⟩

/-- C6: redirect on a present but expired code answers 410 Gone, issues no
redirect and leaves the registry (including the click count) unchanged; on
an absent code it answers 404 Not Found. -/
theorem C6_redirect_expired (data : Reg) (code : String) (now : Int) :
    (∀ link, Store.Get data code = some link → link.expiresAt < now →
      redirectHandler data code now = (HResp.err 410 "short link expired", data)) ∧
    (Store.Get data code = none →
      redirectHandler data code now = (HResp.err 404 "short link not found", data)) := by
  constructor
  · intro link hget hexp
    have hdc : data code = some link := hget
    have ht : timeAfter now link.expiresAt = true := by simp [timeAfter, hexp]
    simp [redirectHandler, Store.Get, hdc, ht]
  · intro hget
    have hdc : data code = none := hget
    simp [redirectHandler, Store.Get, hdc]

theorem C6_redirect_expired_witness :
    redirectHandler regGone "abc" 20 = (HResp.err 410 "short link expired", regGone) ∧
    redirectHandler regGone "zzz" 20 = (HResp.err 404 "short link not found", regGone) :=
  ⟨(C6_redirect_expired regGone "abc" 20).1 linkGone rfl (by decide),
   (C6_redirect_expired regGone "zzz" 20).2 rfl⟩

/-- C8: stats answers 200 with the full stored record whenever the code is
present (even if the record is already expired), answers 404 exactly when
the code is absent, and never answers 410 Gone. -/
theorem C8_stats_record (data : Reg) (code : String) :
    (∀ link, Store.Get data code = some link →
      statsHandler data code = HResp.json 200 link) ∧
    (statsHandler data code = HResp.err 404 "short link not found" ↔
      Store.Get data code = none) ∧
    (∀ msg, statsHandler data code ≠ HResp.err 410 msg) := by
  refine ⟨?_, ?_, ?_⟩
  · intro link hget
    have hdc : data code = some link := hget
    simp [statsHandler, Store.Get, hdc]
  · cases hdc : data code with
    | none => simp [statsHandler, Store.Get, hdc]
    | some link => simp [statsHandler, Store.Get, hdc]
  · intro msg
    cases hdc : data code with
    | none => simp [statsHandler, Store.Get, hdc]
    | some link => simp [statsHandler, Store.Get, hdc]

theorem C8_stats_record_witness :
    statsHandler regGone "abc" = HResp.json 200 linkGone ∧
    statsHandler regGone "zzz" = HResp.err 404 "short link not found" :=
  ⟨(C8_stats_record regGone "abc").1 linkGone rfl,
   (C8_stats_record regGone "zzz").2.1.mpr rfl⟩

/-- C10: whenever Create returns an error, the registry after the call is
exactly the registry before it: no record was inserted, removed or
modified. -/
theorem C10_create_error_preserves (data : Reg) (longURL custom : String)
    (validity now : Int) (draw : Nat → Nat → Fin base62.length) (fuel : Nat)
    (e : CreateError) (reg2 : Reg)
    (h : Store.Create data longURL custom validity now draw fuel =
      some (Except.error e, reg2)) :
    reg2 = data := by
  by_cases hu : parseRequestURI longURL = false
  · simp [Store.Create, hu] at h
    exact h.2.symm
  · by_cases hc : custom = ""
    · subst hc
      cases hg : genLoop data draw 0 fuel with
      | none => simp [Store.Create, hu, hg] at h
      | some code => simp [Store.Create, hu, hg, mkAndInsert] at h
    · by_cases hp : (data custom).isSome = true
      · simp [Store.Create, hu, hc, hp] at h
        exact h.2.symm
      · simp [Store.Create, hu, hc, hp, mkAndInsert] at h

theorem C10_create_error_preserves_witness : regA = regA :=
  C10_create_error_preserves regA "https://example.com" "abc" 30 0 drawA 1
    CreateError.codeConflict regA rfl
